import Mathlib

/-!
Verification of the TMDB movie-rating pipeline (AIBootcamp14 mlops-project-3).

The development shallowly embeds the parts of the repository that the checked
claims are about:

* `preprocessing/preprocessing.py` — the `TMDBDataPreprocessor` steps
  `step2_data_cleaning`, the seasonal flags of `step3_feature_engineering`,
  `step5_feature_scaling` and `step6_train_test_split`;
* `model/register_mlflow.py` — `register_and_promote_model`;
* `serving/services/prediction_service.py` — `get_top_movies`;
* `serving/main.py` — the `/top-movies` query bounds and the `/stats`
  rating-bucket histogram.

Pandas dataframes are modelled as lists of association-list rows over a small
value universe `Val` (rationals for the numeric cells, strings for object
cells, integer lists for the genre-id cells, `null` for NaN/missing).  Python
floats are idealised as rationals throughout.  Operations that raise in
pandas (a `drop_duplicates` subset column that is absent, an order comparison
on a column holding non-numeric cells, scaling a column with NaN) are
modelled with `Except`.
-/

namespace MovieMLOps

/-- Cell values of a dataframe: numeric (floats and ints collapsed to `ℚ`),
strings, genre-id lists, and `null` for NaN / missing. -/
inductive Val where
  | num (q : ℚ)
  | str (s : String)
  | intList (l : List ℤ)
  | null
deriving DecidableEq, Repr

/-- True on numeric cells. -/
def Val.isNum : Val → Bool
  | .num _ => true
  | _ => false

/-- True on cells a pandas numeric-dtype column can hold (numbers and NaN).
An order comparison against a scalar raises in pandas exactly when the column
holds a cell outside this set. -/
def Val.isNumOrNull : Val → Bool
  | .num _ => true
  | .null => true
  | _ => false

/-- One dataframe row: an association list from column name to cell value.
A column absent from the list reads as `null` (pandas fills NaN when a record
lacks a key). -/
abbrev Row := List (String × Val)

/-- Read a cell; missing keys read as `null`. -/
def rowGet : Row → String → Val
  | [], _ => Val.null
  | p :: r, c => if p.1 = c then p.2 else rowGet r c

/-- Apply `f` to the cell of column `c` (pandas `df[c] = f(df[c])` on one row). -/
def setColumn (r : Row) (c : String) (f : Val → Val) : Row :=
  r.map (fun p => if p.1 = c then (p.1, f p.2) else p)

/-- Drop column `c` from a row (`df.drop(columns=[c])` on one row). -/
def dropColumn (r : Row) (c : String) : Row :=
  r.filter (fun p => !(p.1 == c))

/-- A dataframe: declared columns plus the rows. -/
structure DataFrame where
  cols : List String
  rows : List Row
deriving DecidableEq, Repr

/-- Errors raised by the pandas / sklearn calls that the embedded steps make. -/
inductive PyError where
  | keyError (col : String)
  | typeError (col : String)
  | valueError (msg : String)
deriving DecidableEq, Repr

/-! ## Step 2: data cleaning (`TMDBDataPreprocessor.step2_data_cleaning`) -/

/-- The dedupe key of `df.drop_duplicates(subset=['id'], keep='first')`. -/
def rowId (r : Row) : Val := rowGet r "id"

/-- `df.drop_duplicates(subset=['id'], keep='first')`: keep a row iff its id
has not occurred before; `seen` accumulates the ids already kept. -/
def dropDuplicatesById : List Val → List Row → List Row
  | _, [] => []
  | seen, r :: rs =>
    if rowId r ∈ seen then dropDuplicatesById seen rs
    else r :: dropDuplicatesById (rowId r :: seen) rs

/-- Number of rows whose id equals the id of an earlier row (or is in `seen`):
the `D` of claim C3. -/
def duplicateCount : List Val → List Row → ℕ
  | _, [] => 0
  | seen, r :: rs =>
    if rowId r ∈ seen then duplicateCount seen rs + 1
    else duplicateCount (rowId r :: seen) rs

/-- The required columns checked by `step2_data_cleaning`. -/
def requiredColumns : List String := ["id", "vote_average", "vote_count", "popularity"]

/-- `df[df[c] <op> k]` for a numeric comparison `p`: pandas raises a
`TypeError` when the column holds a non-numeric, non-NaN cell, keeps rows on
which `p` holds, and drops NaN rows (a comparison against NaN is false). -/
def filterNumericRows (df : DataFrame) (c : String) (p : ℚ → Bool) :
    Except PyError DataFrame :=
  if df.rows.all (fun r => (rowGet r c).isNumOrNull) then
    .ok { df with rows := df.rows.filter (fun r =>
      match rowGet r c with
      | .num q => p q
      | _ => false) }
  else .error (.typeError c)

/-- `pd.to_numeric(x, errors='coerce')` on one cell.  Numbers pass through and
everything else coerces to NaN.  (Numeric text would parse in pandas, but a
column holding text has already raised in the comparisons that precede this
call in `step2_data_cleaning`, so the difference is unobservable there.) -/
def toNumericCoerce : Val → Val
  | .num q => .num q
  | _ => .null

/-- Step 2 of the pipeline, `TMDBDataPreprocessor.step2_data_cleaning`:
dedupe by id (`drop_duplicates` raises `KeyError` when the `id` column is
absent), return the `None` sentinel when a required column is missing, filter
`vote_average > 0`, `vote_count >= 10`, `vote_average <= 10`, coerce the three
numeric columns, and drop rows still missing a required field. -/
def step2_data_cleaning (df : DataFrame) : Except PyError (Option DataFrame) :=
  if "id" ∈ df.cols then
    let df1 : DataFrame := { df with rows := dropDuplicatesById [] df.rows }
    if requiredColumns.all (fun c => df1.cols.contains c) then do
      let df2 ← filterNumericRows df1 "vote_average" (fun q => decide (0 < q))
      let df3 ← filterNumericRows df2 "vote_count" (fun q => decide (10 ≤ q))
      let df4 ← filterNumericRows df3 "vote_average" (fun q => decide (q ≤ 10))
      let df5 : DataFrame := { df4 with rows := df4.rows.map (fun r =>
        setColumn (setColumn (setColumn r
          "vote_average" toNumericCoerce) "vote_count" toNumericCoerce)
          "popularity" toNumericCoerce) }
      let df6 : DataFrame := { df5 with rows := df5.rows.filter (fun r =>
        requiredColumns.all (fun c => !(rowGet r c == Val.null))) }
      .ok (some df6)
    else .ok none
  else .error (.keyError "id")

/-! ## Step 3: the seasonal flags of `TMDBDataPreprocessor.step3_feature_engineering` -/

/-- `df[col].isin(xs).astype(int)` on one cell: 1 when the cell is a number in
`xs`, else 0 (NaN is in no list). -/
def seasonFlag (xs : List ℚ) (v : Val) : Val :=
  match v with
  | .num q => if q ∈ xs then .num 1 else .num 0
  | _ => .num 0

/-- `df['is_summer_release'] = df['release_month'].isin([6,7,8]).astype(int)`. -/
def is_summer_release (month : Val) : Val := seasonFlag [6, 7, 8] month

/-- `df['is_holiday_release'] = df['release_month'].isin([11,12]).astype(int)`. -/
def is_holiday_release (month : Val) : Val := seasonFlag [11, 12] month

/-- `df['is_spring_release'] = df['release_month'].isin([3,4,5]).astype(int)`. -/
def is_spring_release (month : Val) : Val := seasonFlag [3, 4, 5] month

/-! ## Step 5: feature scaling (`TMDBDataPreprocessor.step5_feature_scaling`) -/

/-- The cells of column `c`, in row order (`df[c]`). -/
def colValues (df : DataFrame) (c : String) : List Val :=
  df.rows.map (fun r => rowGet r c)

/-- Numeric dtype test used by `X.select_dtypes(include=[np.number])`: the
column holds only numbers and NaN. -/
def isNumericColumn (df : DataFrame) (c : String) : Bool :=
  (colValues df c).all Val.isNumOrNull

/-- `X[c].nunique()`: number of distinct non-null values. -/
def nunique (df : DataFrame) (c : String) : ℕ :=
  ((colValues df c).filter Val.isNum).eraseDups.length

/-- The numeric values of a column whose cells are all numeric (used after the
NaN check; the default 0 is never read there). -/
def numColumnAsRats (df : DataFrame) (c : String) : List ℚ :=
  (colValues df c).map (fun v => match v with | .num q => q | _ => 0)

/-- Sum of a list of rationals. -/
def listSum (xs : List ℚ) : ℚ := xs.foldr (· + ·) 0

/-- Column mean, as computed by `StandardScaler`. -/
def listMean (xs : List ℚ) : ℚ := listSum xs / xs.length

/-- Population variance, as computed by `StandardScaler`. -/
def popVariance (xs : List ℚ) : ℚ :=
  listSum (xs.map (fun x => (x - listMean xs) ^ 2)) / xs.length

/-- Rational stand-in for the float square root that `StandardScaler` takes of
the variance.  The square root of a rational is generally irrational, so the
float computation is modelled by a fixed rational-valued function (exact on
perfect squares); every claim proved below about scaling uses only that this
is a function of the variance, never its value. -/
def ratSqrtApprox (q : ℚ) : ℚ :=
  (Nat.sqrt q.num.toNat : ℚ) / (Nat.sqrt q.den : ℚ)

/-- `StandardScaler().fit_transform` on one column: z-scores against the
column's own mean and standard deviation (a zero variance scales by 1, as in
sklearn). -/
def standardScale (xs : List ℚ) : List ℚ :=
  let m := listMean xs
  let v := popVariance xs
  let s := if v = 0 then 1 else ratSqrtApprox v
  xs.map (fun x => (x - m) / s)

/-- `str(x)` as applied by `.astype(str)` before label encoding.  The exact
rendering of numbers differs from Python's; the claims below use only that it
is a function of the cell. -/
def valToStr : Val → String
  | .num q => toString q
  | .str s => s
  | .intList l => toString l
  | .null => "nan"

/-- A fitted `sklearn.preprocessing.LabelEncoder`: its `classes_` attribute. -/
structure LabelEncoder where
  classes : List String
deriving DecidableEq, Repr

/-- `np.unique`: sorted distinct values. -/
def sortedUniqueStrings (xs : List String) : List String :=
  (List.insertionSort (fun a b : String => a ≤ b) xs).eraseDups

/-- `LabelEncoder.fit_transform`: refit `classes_` from the input and encode
each element by its index among the sorted distinct values.  The previous
state of the encoder is discarded by the refit. -/
def LabelEncoder.fitTransform (e : LabelEncoder) (ys : List String) :
    LabelEncoder × List ℕ :=
  let _ := e
  let cs := sortedUniqueStrings ys
  (⟨cs⟩, ys.map (fun s => cs.indexOf s))

/-- The `self.label_encoders` dict: column name to cached encoder. -/
abbrev EncoderCache := List (String × LabelEncoder)

/-- `self.label_encoders[col]` after the `if col not in self.label_encoders`
guard: the cached encoder when present, a fresh one otherwise. -/
def lookupEncoder (encs : EncoderCache) (c : String) : LabelEncoder :=
  match encs.find? (fun p => p.1 == c) with
  | some p => p.2
  | none => ⟨[]⟩

/-- Store an encoder back into the dict (overwrite in place, insert at the
end when new, as a Python dict does). -/
def storeEncoder (encs : EncoderCache) (c : String) (e : LabelEncoder) :
    EncoderCache :=
  if (encs.find? (fun p => p.1 == c)).isSome then
    encs.map (fun p => if p.1 == c then (p.1, e) else p)
  else encs ++ [(c, e)]

/-- The `for col in categorical_features` loop of `step5_feature_scaling`:
fetch or create the encoder for each column, `fit_transform` the column cast
to strings, store the refit encoder, and emit the `{col}_encoded` column. -/
def encodeColumns (df : DataFrame) :
    EncoderCache → List String → EncoderCache × List (String × List Val)
  | encs, [] => (encs, [])
  | encs, c :: rest =>
    let e := lookupEncoder encs c
    let ft := e.fitTransform ((colValues df c).map valToStr)
    let next := encodeColumns df (storeEncoder encs c ft.1) rest
    (next.1, (c ++ "_encoded", ft.2.map (fun n => Val.num n)) :: next.2)

/-- Result of step 5: either the input frame unchanged (missing target) or
the reassembled frame, column-wise. -/
inductive Step5Result where
  | unchanged (df : DataFrame)
  | frame (cols : List (String × List Val))
deriving DecidableEq, Repr

/-- Step 5 of the pipeline, `TMDBDataPreprocessor.step5_feature_scaling`.

Mirrors the source: split off the target (returning the frame unchanged when
the target column is absent); select the numeric features minus
`id`/`content_id` and the binary (`nunique <= 2`) columns; z-score those into
`{col}_scaled` columns (sklearn raises `ValueError` on NaN input, modelled by
the `Except`); label-encode every object/category column into
`{col}_encoded`, reusing the per-preprocessor encoder dict; and reassemble as
`X[original_numeric] ++ scaled ++ X[encoded] ++ [target]`.  Because the
encoded columns are added to `X` before `original_numeric` is recomputed from
`X`, they appear in `original_numeric` as well and hence twice in the final
frame, as in the source. -/
def step5_feature_scaling (encs : EncoderCache) (df : DataFrame)
    (target : String) : EncoderCache × Except PyError Step5Result :=
  if target ∈ df.cols then
    let xcols := df.cols.erase target
    let y := colValues df target
    let numericCols := xcols.filter (fun c => isNumericColumn df c)
    let numericFeatures := numericCols.filter (fun c =>
      !(c == "id") && !(c == "content_id") && decide (2 < nunique df c))
    if numericFeatures.all (fun c => (colValues df c).all Val.isNum) then
      let scaledCols := numericFeatures.map (fun c =>
        (c ++ "_scaled", (standardScale (numColumnAsRats df c)).map Val.num))
      let categoricalFeatures := xcols.filter (fun c => !(isNumericColumn df c))
      let encPass := encodeColumns df encs categoricalFeatures
      let originalNumeric := numericCols.filter (fun c =>
        !(numericFeatures.contains c))
      let finalCols :=
        (originalNumeric.map (fun c => (c, colValues df c)) ++ encPass.2)
        ++ scaledCols ++ encPass.2 ++ [(target, y)]
      (encPass.1, .ok (.frame finalCols))
    else (encs, .error (.valueError "Input contains NaN"))
  else (encs, .ok (.unchanged df))

/-! ## Step 6: train/test split (`TMDBDataPreprocessor.step6_train_test_split`) -/

/-- `pd.Series.quantile(p)` with the default linear interpolation: sort the
non-null values, take position `p * (n - 1)`, and interpolate between the two
neighbouring order statistics; `none` models the NaN a quantile of an empty
series yields. -/
def quantileLinear (xs : List ℚ) (p : ℚ) : Option ℚ :=
  let v := List.insertionSort (fun a b : ℚ => a ≤ b) xs
  if v.isEmpty then none
  else
    let pos : ℚ := p * ((v.length : ℚ) - 1)
    let i : ℕ := (⌊pos⌋).toNat
    let frac : ℚ := pos - (i : ℚ)
    some (v.getD i 0 + frac * (v.getD (min (i + 1) (v.length - 1)) 0 - v.getD i 0))

/-- The non-null numeric values of column `c` (what `quantile` ranges over). -/
def numericColumnValues (df : DataFrame) (c : String) : List ℚ :=
  df.rows.filterMap (fun r =>
    match rowGet r c with
    | .num q => some q
    | _ => none)

/-- The `train_mask` of step 6: `df['release_year'] <= year_threshold`.
A NaN year compares false. -/
def releaseYearLE (r : Row) (t : ℚ) : Bool :=
  match rowGet r "release_year" with
  | .num q => decide (q ≤ t)
  | _ => false

/-- The `test_mask` of step 6: `df['release_year'] > year_threshold`.
A NaN year compares false. -/
def releaseYearGT (r : Row) (t : ℚ) : Bool :=
  match rowGet r "release_year" with
  | .num q => decide (t < q)
  | _ => false

/-- Result of step 6: the time-based split (threshold, feature matrices and
target vectors), or the call to `sklearn.model_selection.train_test_split`
that the fallback branch makes; the library call is modelled as an opaque
record of its arguments (`X`, `y`, `test_size`, `random_state=42`). -/
inductive SplitResult where
  | timeBased (threshold : Option ℚ) (Xtrain Xtest : List Row)
      (ytrain ytest : List Val)
  | randomSplit (X : List Row) (y : List Val) (testSize : ℚ) (seed : ℕ)
deriving DecidableEq, Repr

/-- Step 6 of the pipeline, `TMDBDataPreprocessor.step6_train_test_split`:
`X = df.drop(columns=[target])` (a missing target raises `KeyError`),
`y = df[target]`; when a `release_year` column exists, split by
`year_threshold = df['release_year'].quantile(0.8)` with masks
`<= threshold` (train) and `> threshold` (test), in input order; otherwise
fall back to `train_test_split(X, y, test_size, random_state=42)`. -/
def step6_train_test_split (df : DataFrame) (target : String)
    (testSize : ℚ) : Except PyError SplitResult :=
  if target ∈ df.cols then
    if "release_year" ∈ df.cols then
      match quantileLinear (numericColumnValues df "release_year") (4 / 5) with
      | some t =>
        .ok (.timeBased (some t)
          ((df.rows.filter (fun r => releaseYearLE r t)).map
            (fun r => dropColumn r target))
          ((df.rows.filter (fun r => releaseYearGT r t)).map
            (fun r => dropColumn r target))
          ((df.rows.filter (fun r => releaseYearLE r t)).map
            (fun r => rowGet r target))
          ((df.rows.filter (fun r => releaseYearGT r t)).map
            (fun r => rowGet r target)))
      | none =>
        .ok (.timeBased none [] [] [] [])
    else
      .ok (.randomSplit (df.rows.map (fun r => dropColumn r target))
        (df.rows.map (fun r => rowGet r target)) testSize 42)
  else .error (.keyError target)

/-! ## Registry promotion (`model/register_mlflow.py`, `register_and_promote_model`) -/

/-- One version of a registered model, with the run it was registered from
and its current stage. -/
structure ModelVersion where
  version : ℕ
  runId : String
  stage : String
deriving DecidableEq, Repr

/-- `mlflow.register_model(model_uri=f"runs:/{run_id}/model", name=...)`:
append a fresh version (one larger than any existing) in stage `"None"`,
returning the new version number. -/
def registerModel (reg : List ModelVersion) (runId : String) :
    List ModelVersion × ℕ :=
  let v := (reg.map (fun mv => mv.version)).foldr max 0 + 1
  (reg ++ [⟨v, runId, "None"⟩], v)

/-- `client.transition_model_version_stage(name, version, stage)`. -/
def transitionStage (reg : List ModelVersion) (v : ℕ) (stage : String) :
    List ModelVersion :=
  reg.map (fun mv => if mv.version = v then { mv with stage := stage } else mv)

/-- `register_and_promote_model(best_run_id, name, stage)` on the registry
state of one registered model name: register the run's model as a new
version, demote every version currently in `stage` to `"None"` (the
`for mv in client.search_model_versions(...)` loop), then transition the new
version to `stage`.  Returns the final registry state and the new version. -/
def register_and_promote_model (reg : List ModelVersion) (runId : String)
    (stage : String) : List ModelVersion × ℕ :=
  let rv := registerModel reg runId
  let demoted := rv.1.map (fun mv =>
    if mv.stage = stage then { mv with stage := "None" } else mv)
  (transitionStage demoted rv.2 stage, rv.2)

/-! ## Serving (`prediction_service.py` and `main.py`) -/

/-- The prediction cache `self.predictions`, computed once at startup:
parallel lists of movie ids and predicted ratings. -/
structure PredCache where
  movieIds : List ℤ
  predictions : List ℚ
deriving DecidableEq, Repr

/-- The descending order used by
`sorted(zip(movie_ids, predictions), key=lambda x: x[1], reverse=True)`. -/
def ratingDesc (a b : ℤ × ℚ) : Prop := b.2 ≤ a.2

instance : DecidableRel ratingDesc :=
  fun a b => inferInstanceAs (Decidable (b.2 ≤ a.2))

instance : IsTotal (ℤ × ℚ) ratingDesc :=
  ⟨fun a b => le_total b.2 a.2⟩

instance : IsTrans (ℤ × ℚ) ratingDesc :=
  ⟨fun _ _ _ h1 h2 => le_trans h2 h1⟩

/-- One entry of the `top_movies` response list. -/
structure TopMovie where
  rank : ℕ
  movieId : ℤ
  predictedRating : ℚ
deriving DecidableEq, Repr

/-- `round(x, 2)` (Python rounds floats half-to-even; modelled on rationals
by `round`, which agrees away from exact midpoints). -/
def roundTo2 (q : ℚ) : ℚ := (round (q * 100) : ℚ) / 100

/-- The `for rank, (movie_id, predicted_rating) in enumerate(sorted_data, 1)`
formatting loop of `get_top_movies`. -/
def rankFormat : ℕ → List (ℤ × ℚ) → List TopMovie
  | _, [] => []
  | n, (mid, p) :: rest => ⟨n, mid, roundTo2 p⟩ :: rankFormat (n + 1) rest

/-- `SimplePredictionService.get_top_movies(top_n)`: `none` when no
predictions are cached; otherwise the ranked first `top_n` of the cache
sorted by predicted rating descending, together with `total_count`
(`len(predictions)`). -/
def get_top_movies (cache : Option PredCache) (topn : ℕ) :
    Option (List TopMovie × ℕ) :=
  match cache with
  | none => none
  | some c =>
    let sortedData := List.insertionSort ratingDesc (c.movieIds.zip c.predictions)
    some (rankFormat 1 (sortedData.take topn), c.predictions.length)

/-- The FastAPI query declaration of `/top-movies`:
`limit: int = Query(default=10, ge=1, le=50)` — the default value. -/
def topMoviesLimitDefault : ℤ := 10

/-- The FastAPI query declaration of `/top-movies`: the validation predicate
`ge=1, le=50` applied to the `limit` parameter. -/
def topMoviesLimitAccepted (n : ℤ) : Bool :=
  decide (1 ≤ n) && decide (n ≤ 50)

/-- The five-bucket rating histogram of `/stats` (`rating_bins` in
`get_prediction_statistics`), in source order. -/
def ratingBins (ratings : List ℚ) : ℕ × ℕ × ℕ × ℕ × ℕ :=
  ((ratings.filter (fun r => decide (8 ≤ r))).length,
   (ratings.filter (fun r => decide (7 ≤ r) && decide (r < 8))).length,
   (ratings.filter (fun r => decide (6 ≤ r) && decide (r < 7))).length,
   (ratings.filter (fun r => decide (5 ≤ r) && decide (r < 6))).length,
   (ratings.filter (fun r => decide (r < 5))).length)

/-- The `/stats` endpoint, restricted to the fields claim C10 is about:
`ratings` is the predicted-rating list of `get_predictions()` (the zip of the
cached id and prediction lists), `total_movies = len(ratings)`, and the
bucket histogram; `none` models the 404 path taken when no predictions are
cached.  (The remaining summary statistics of the endpoint are not needed by
any claim and are omitted.) -/
def get_prediction_statistics (cache : Option PredCache) :
    Option (ℕ × (ℕ × ℕ × ℕ × ℕ × ℕ)) :=
  match cache with
  | none => none
  | some c =>
    let ratings := (c.movieIds.zip c.predictions).map (fun p => p.2)
    some (ratings.length, ratingBins ratings)

/-! ## Helper lemmas -/

lemma duplicateCount_le (rows : List Row) :
    ∀ seen, duplicateCount seen rows ≤ rows.length := by
  induction rows with
  | nil => intro seen; simp [duplicateCount]
  | cons r rs ih =>
    intro seen
    by_cases h : rowId r ∈ seen
    · simp only [duplicateCount, if_pos h, List.length_cons]
      exact Nat.add_le_add_right (ih seen) 1
    · simp only [duplicateCount, if_neg h, List.length_cons]
      exact Nat.le_succ_of_le (ih _)

lemma dropDuplicatesById_length (rows : List Row) :
    ∀ seen, (dropDuplicatesById seen rows).length =
      rows.length - duplicateCount seen rows := by
  induction rows with
  | nil => intro seen; simp [dropDuplicatesById, duplicateCount]
  | cons r rs ih =>
    intro seen
    by_cases h : rowId r ∈ seen
    · simp only [dropDuplicatesById, duplicateCount, if_pos h, List.length_cons]
      have := duplicateCount_le rs seen
      rw [ih seen]
      omega
    · simp only [dropDuplicatesById, duplicateCount, if_neg h, List.length_cons]
      have := duplicateCount_le rs (rowId r :: seen)
      rw [ih (rowId r :: seen)]
      omega

lemma dropDuplicatesById_find? (rows : List Row) (v : Val) :
    ∀ seen, v ∉ seen →
      (dropDuplicatesById seen rows).find? (fun r => rowId r == v) =
        rows.find? (fun r => rowId r == v) := by
  induction rows with
  | nil => intro seen _; rfl
  | cons r rs ih =>
    intro seen hv
    by_cases h : rowId r ∈ seen
    · have hne : (rowId r == v) = false := by
        rw [beq_eq_false_iff_ne]
        intro hb
        exact hv (hb ▸ h)
      simp only [dropDuplicatesById, if_pos h, List.find?, hne]
      exact ih seen hv
    · simp only [dropDuplicatesById, if_neg h]
      by_cases hid : rowId r = v
      · have hpos : (rowId r == v) = true := beq_iff_eq.mpr hid
        simp only [List.find?, hpos]
      · have hne : (rowId r == v) = false := beq_eq_false_iff_ne.mpr hid
        simp only [List.find?, hne]
        refine ih _ ?_
        intro hmem
        rcases List.mem_cons.mp hmem with h1 | h1
        · exact hid h1.symm
        · exact hv h1

lemma seasonFlag_eq_one {xs : List ℚ} {v : Val}
    (h : seasonFlag xs v = Val.num 1) : ∃ q, v = Val.num q ∧ q ∈ xs := by
  cases v with
  | num q =>
    by_cases hq : q ∈ xs
    · exact ⟨q, rfl, hq⟩
    · simp [seasonFlag, hq] at h
  | str s => simp [seasonFlag] at h
  | intList l => simp [seasonFlag] at h
  | null => simp [seasonFlag] at h

lemma seasonFlags_pairwise (month : Val) :
    (¬ (is_summer_release month = Val.num 1 ∧
        is_holiday_release month = Val.num 1)) ∧
    (¬ (is_summer_release month = Val.num 1 ∧
        is_spring_release month = Val.num 1)) ∧
    (¬ (is_holiday_release month = Val.num 1 ∧
        is_spring_release month = Val.num 1)) := by
  refine ⟨fun ⟨h1, h2⟩ => ?_, fun ⟨h1, h2⟩ => ?_, fun ⟨h1, h2⟩ => ?_⟩ <;>
  · obtain ⟨q, rfl, hq1⟩ := seasonFlag_eq_one h1
    obtain ⟨q', hq', hq2⟩ := seasonFlag_eq_one h2
    obtain rfl : q = q' := Val.num.inj hq'
    simp only [List.mem_cons, List.not_mem_nil, or_false] at hq1 hq2
    rcases hq1 with rfl | rfl | rfl <;> rcases hq2 with h | h <;> norm_num at h

lemma le_foldr_max (l : List ℕ) : ∀ x ∈ l, x ≤ l.foldr max 0 := by
  induction l with
  | nil => intro x hx; cases hx
  | cons a l ih =>
    intro x hx
    rcases List.mem_cons.mp hx with rfl | hx
    · exact le_max_left _ _
    · exact le_trans (ih x hx) (le_max_right _ _)

lemma mem_dropDuplicatesById {r : Row} :
    ∀ {seen : List Val} {rows : List Row},
      r ∈ dropDuplicatesById seen rows → r ∈ rows := by
  intro seen rows
  induction rows generalizing seen with
  | nil => intro h; exact absurd h (List.not_mem_nil r)
  | cons a rs ih =>
    intro h
    by_cases ha : rowId a ∈ seen
    · simp only [dropDuplicatesById, if_pos ha] at h
      exact List.mem_cons_of_mem a (ih h)
    · simp only [dropDuplicatesById, if_neg ha] at h
      rcases List.mem_cons.mp h with rfl | h
      · exact List.mem_cons_self r rs
      · exact List.mem_cons_of_mem a (ih h)

lemma rowGet_setColumn_same (r : Row) (c : String) (f : Val → Val)
    (hf : f Val.null = Val.null) :
    rowGet (setColumn r c f) c = f (rowGet r c) := by
  induction r with
  | nil => simp [setColumn, rowGet, hf]
  | cons p r ih =>
    by_cases hp : p.1 = c
    · simp [setColumn, rowGet, hp]
    · simp only [setColumn, List.map_cons, if_neg hp, rowGet, hp, ite_false]
      exact ih

lemma rowGet_setColumn_other (r : Row) (c c' : String) (f : Val → Val)
    (h : c' ≠ c) :
    rowGet (setColumn r c f) c' = rowGet r c' := by
  induction r with
  | nil => simp [setColumn, rowGet]
  | cons p r ih =>
    by_cases hp : p.1 = c
    · have hp' : ¬ p.1 = c' := fun hh => h (hh ▸ hp ▸ rfl)
      simp only [setColumn, List.map_cons, if_pos hp, rowGet, if_neg hp']
      exact ih
    · simp only [setColumn, List.map_cons, if_neg hp, rowGet]
      by_cases hq : p.1 = c'
      · simp [hq]
      · simp only [if_neg hq]
        exact ih

lemma except_error_bind {α β : Type} (e : PyError) (f : α → Except PyError β) :
    (Except.error e >>= f) = Except.error e := rfl

lemma except_ok_bind {α β : Type} (a : α) (f : α → Except PyError β) :
    (Except.ok a >>= f) = f a := rfl

lemma filterNumericRows_ok {df : DataFrame} {c : String} {p : ℚ → Bool}
    {d : DataFrame} (h : filterNumericRows df c p = .ok d) :
    d.cols = df.cols ∧ d.rows = df.rows.filter (fun r =>
      match rowGet r c with | .num q => p q | _ => false) := by
  unfold filterNumericRows at h
  split_ifs at h with hall
  · exact ⟨(Except.ok.inj h).symm ▸ rfl, (Except.ok.inj h).symm ▸ rfl⟩

lemma filterNumericRows_all_ok (df : DataFrame) (c : String) (p : ℚ → Bool)
    (h : ∀ r ∈ df.rows, (rowGet r c).isNumOrNull = true) :
    filterNumericRows df c p = .ok ⟨df.cols, df.rows.filter (fun r =>
      match rowGet r c with | .num q => p q | _ => false)⟩ := by
  unfold filterNumericRows
  rw [if_pos (List.all_eq_true.mpr h)]

lemma bucket_indicator (r : ℚ) :
    ((if 8 ≤ r then 1 else 0) + (if 7 ≤ r ∧ r < 8 then 1 else 0) +
     (if 6 ≤ r ∧ r < 7 then 1 else 0) + (if 5 ≤ r ∧ r < 6 then 1 else 0) +
     (if r < 5 then 1 else 0) : ℕ) = 1 := by
  rcases le_or_lt 8 r with h8 | h8
  · rw [if_pos h8, if_neg (fun h => absurd h.2 (not_lt.2 h8)),
      if_neg (fun h => absurd h.2 (not_lt.2 (by linarith))),
      if_neg (fun h => absurd h.2 (not_lt.2 (by linarith))),
      if_neg (not_lt.2 (by linarith))]
  · rcases le_or_lt 7 r with h7 | h7
    · rw [if_neg (not_le.2 h8), if_pos ⟨h7, h8⟩,
        if_neg (fun h => absurd h.2 (not_lt.2 h7)),
        if_neg (fun h => absurd h.2 (not_lt.2 (by linarith))),
        if_neg (not_lt.2 (by linarith))]
    · rcases le_or_lt 6 r with h6 | h6
      · rw [if_neg (not_le.2 h8), if_neg (fun h => absurd h.1 (not_le.2 h7)),
          if_pos ⟨h6, h7⟩, if_neg (fun h => absurd h.2 (not_lt.2 h6)),
          if_neg (not_lt.2 (by linarith))]
      · rcases le_or_lt 5 r with h5 | h5
        · rw [if_neg (not_le.2 h8), if_neg (fun h => absurd h.1 (not_le.2 h7)),
            if_neg (fun h => absurd h.1 (not_le.2 h6)), if_pos ⟨h5, h6⟩,
            if_neg (not_lt.2 h5)]
        · rw [if_neg (not_le.2 h8), if_neg (fun h => absurd h.1 (not_le.2 h7)),
            if_neg (fun h => absurd h.1 (not_le.2 h6)),
            if_neg (fun h => absurd h.1 (not_le.2 (by linarith))),
            if_pos h5]

lemma ratingBins_sum (l : List ℚ) :
    (ratingBins l).1 + (ratingBins l).2.1 + (ratingBins l).2.2.1 +
    (ratingBins l).2.2.2.1 + (ratingBins l).2.2.2.2 = l.length := by
  induction l with
  | nil => rfl
  | cons r l ih =>
    simp only [ratingBins, List.filter_cons] at ih ⊢
    rcases le_or_lt 8 r with h8 | h8
    · have c1 : decide (8 ≤ r) = true := decide_eq_true h8
      have c2 : decide (r < 8) = false := decide_eq_false (not_lt.2 h8)
      have c3 : decide (r < 7) = false := decide_eq_false (not_lt.2 (by linarith))
      have c4 : decide (r < 6) = false := decide_eq_false (not_lt.2 (by linarith))
      have c5 : decide (r < 5) = false := decide_eq_false (not_lt.2 (by linarith))
      simp [c1, c2, c3, c4, c5]
      omega
    · rcases le_or_lt 7 r with h7 | h7
      · have c1 : decide (8 ≤ r) = false := decide_eq_false (not_le.2 h8)
        have c2a : decide (7 ≤ r) = true := decide_eq_true h7
        have c2b : decide (r < 8) = true := decide_eq_true h8
        have c3 : decide (r < 7) = false := decide_eq_false (not_lt.2 h7)
        have c4 : decide (r < 6) = false := decide_eq_false (not_lt.2 (by linarith))
        have c5 : decide (r < 5) = false := decide_eq_false (not_lt.2 (by linarith))
        simp [c1, c2a, c2b, c3, c4, c5]
        omega
      · rcases le_or_lt 6 r with h6 | h6
        · have c1 : decide (8 ≤ r) = false := decide_eq_false (not_le.2 h8)
          have c2a : decide (7 ≤ r) = false := decide_eq_false (not_le.2 h7)
          have c3a : decide (6 ≤ r) = true := decide_eq_true h6
          have c3b : decide (r < 7) = true := decide_eq_true h7
          have c4 : decide (r < 6) = false := decide_eq_false (not_lt.2 h6)
          have c5 : decide (r < 5) = false := decide_eq_false (not_lt.2 (by linarith))
          simp [c1, c2a, c3a, c3b, c4, c5]
          omega
        · rcases le_or_lt 5 r with h5 | h5
          · have c1 : decide (8 ≤ r) = false := decide_eq_false (not_le.2 h8)
            have c2a : decide (7 ≤ r) = false := decide_eq_false (not_le.2 h7)
            have c3a : decide (6 ≤ r) = false := decide_eq_false (not_le.2 h6)
            have c4a : decide (5 ≤ r) = true := decide_eq_true h5
            have c4b : decide (r < 6) = true := decide_eq_true h6
            have c5 : decide (r < 5) = false := decide_eq_false (not_lt.2 h5)
            simp [c1, c2a, c3a, c4a, c4b, c5]
            omega
          · have c1 : decide (8 ≤ r) = false := decide_eq_false (not_le.2 h8)
            have c2a : decide (7 ≤ r) = false := decide_eq_false (not_le.2 h7)
            have c3a : decide (6 ≤ r) = false := decide_eq_false (not_le.2 h6)
            have c4a : decide (5 ≤ r) = false :=
              decide_eq_false (not_le.2 (by linarith))
            have c5 : decide (r < 5) = true := decide_eq_true h5
            simp [c1, c2a, c3a, c4a, c5]
            omega

lemma roundTo2_mono {a b : ℚ} (h : a ≤ b) : roundTo2 a ≤ roundTo2 b := by
  unfold roundTo2
  have hr : round (a * 100) ≤ round (b * 100) := by
    rw [round_eq, round_eq]
    exact Int.floor_le_floor (by linarith)
  rw [div_le_div_iff_of_pos_right (by norm_num : (0:ℚ) < 100)]
  exact_mod_cast hr

lemma rankFormat_length (l : List (ℤ × ℚ)) :
    ∀ n, (rankFormat n l).length = l.length := by
  induction l with
  | nil => intro n; rfl
  | cons p rest ih =>
    intro n
    cases p
    simp [rankFormat, ih]

lemma rankFormat_ranks (l : List (ℤ × ℚ)) :
    ∀ n, (rankFormat n l).map TopMovie.rank = List.range' n l.length := by
  induction l with
  | nil => intro n; rfl
  | cons p rest ih =>
    intro n
    cases p
    simp [rankFormat, ih, List.range']

lemma rankFormat_map_proj (l : List (ℤ × ℚ)) :
    ∀ n, (rankFormat n l).map (fun t => (t.movieId, t.predictedRating)) =
      l.map (fun p => (p.1, roundTo2 p.2)) := by
  induction l with
  | nil => intro n; rfl
  | cons p rest ih =>
    intro n
    cases p
    simp [rankFormat, ih]

lemma mem_rankFormat_rating {l : List (ℤ × ℚ)} :
    ∀ {n : ℕ} {b : TopMovie}, b ∈ rankFormat n l →
      ∃ x ∈ l, b.predictedRating = roundTo2 x.2 := by
  induction l with
  | nil => intro n b hb; exact absurd hb (List.not_mem_nil b)
  | cons p rest ih =>
    intro n b hb
    cases p with
    | mk mid q =>
      rcases List.mem_cons.mp hb with rfl | hb
      · exact ⟨(mid, q), List.mem_cons_self _ _, rfl⟩
      · obtain ⟨x, hx, hbx⟩ := ih hb
        exact ⟨x, List.mem_cons_of_mem _ hx, hbx⟩

lemma rankFormat_pairwise {l : List (ℤ × ℚ)}
    (h : List.Pairwise ratingDesc l) :
    ∀ n, List.Pairwise
      (fun a b : TopMovie => b.predictedRating ≤ a.predictedRating)
      (rankFormat n l) := by
  induction l with
  | nil => intro n; exact List.Pairwise.nil
  | cons p rest ih =>
    intro n
    obtain ⟨hp, hrest⟩ := List.pairwise_cons.mp h
    cases p with
    | mk mid q =>
      refine List.Pairwise.cons ?_ (ih hrest (n + 1))
      intro b hb
      obtain ⟨x, hx, hbx⟩ := mem_rankFormat_rating hb
      have hx2 : x.2 ≤ q := hp x hx
      simpa [hbx] using roundTo2_mono hx2

lemma encodeColumns_snd (df : DataFrame) (cols : List String) :
    ∀ encs1 encs2 : EncoderCache,
      (encodeColumns df encs1 cols).2 = (encodeColumns df encs2 cols).2 := by
  induction cols with
  | nil => intro encs1 encs2; rfl
  | cons c rest ih =>
    intro encs1 encs2
    simp only [encodeColumns]
    congr 1
    exact ih _ _

lemma step5_output_state_independent (df : DataFrame) (target : String) :
    ∀ encs1 encs2 : EncoderCache,
      (step5_feature_scaling encs1 df target).2 =
        (step5_feature_scaling encs2 df target).2 := by
  intro encs1 encs2
  simp only [step5_feature_scaling]
  split_ifs with ht hnn
  · simp only
    rw [encodeColumns_snd df _ encs1 encs2]
  · rfl
  · rfl

lemma quantileLinear_some {xs : List ℚ} (h : xs ≠ []) (p : ℚ) :
    ∃ t, quantileLinear xs p = some t := by
  unfold quantileLinear
  have hlen : (List.insertionSort (fun a b : ℚ => a ≤ b) xs).isEmpty = false := by
    rw [List.isEmpty_eq_false]
    intro hc
    exact h (List.eq_nil_of_length_eq_zero
      (by rw [← (List.perm_insertionSort (fun a b : ℚ => a ≤ b) xs).length_eq, hc]
          rfl))
  rw [if_neg (by simp [hlen])]
  exact ⟨_, rfl⟩

lemma length_filter_partition {l : List Row} {p q : Row → Bool}
    (h : ∀ r ∈ l, p r = !q r) :
    (l.filter p).length + (l.filter q).length = l.length := by
  induction l with
  | nil => rfl
  | cons r rs ih =>
    have hr := h r (List.mem_cons_self r rs)
    have ihr := ih (fun x hx => h x (List.mem_cons_of_mem r hx))
    rw [List.filter_cons, List.filter_cons]
    cases hq : q r
    · rw [hq] at hr
      simp [hr]
      omega
    · rw [hq] at hr
      simp [hr]
      omega

lemma releaseYear_mask_compl {r : Row} {t : ℚ}
    (h : (rowGet r "release_year").isNum = true) :
    releaseYearLE r t = !releaseYearGT r t := by
  obtain ⟨q, hq⟩ : ∃ q, rowGet r "release_year" = Val.num q := by
    cases hv : rowGet r "release_year" <;> rw [hv] at h <;>
      simp [Val.isNum] at h ⊢
  simp only [releaseYearLE, releaseYearGT, hq]
  by_cases hqt : q ≤ t
  · simp [hqt, not_lt.mpr hqt]
  · simp [hqt, lt_of_not_le hqt]

/-! ## Claim theorems -/

/-- C3: on every input, the dedupe of the Clean step
(`drop_duplicates(subset=['id'], keep='first')`) leaves exactly `N − D` rows,
where `N` is the row count and `D` the number of rows whose id equals the id
of an earlier row, and for every id value the retained row is the first row
of the input carrying that id. -/
theorem step2_dedupe_first_occurrence (rows : List Row) :
    (dropDuplicatesById [] rows).length = rows.length - duplicateCount [] rows ∧
    ∀ v : Val, (dropDuplicatesById [] rows).find? (fun r => rowId r == v) =
      rows.find? (fun r => rowId r == v) :=
  ⟨dropDuplicatesById_length rows [],
   fun v => dropDuplicatesById_find? rows v [] (List.not_mem_nil v)⟩

/-- C2: when the Clean step returns a dataframe, every surviving row has
`0 < vote_average ≤ 10` and `vote_count ≥ 10`; no row outside those ranges
survives `step2_data_cleaning`. -/
theorem step2_cleaning_invariant (df : DataFrame) (out : DataFrame)
    (h : step2_data_cleaning df = .ok (some out)) :
    ∀ r ∈ out.rows,
      (∃ q, rowGet r "vote_average" = Val.num q ∧ 0 < q ∧ q ≤ 10) ∧
      (∃ k, rowGet r "vote_count" = Val.num k ∧ 10 ≤ k) := by
  intro r hr
  simp only [step2_data_cleaning] at h
  by_cases hid : "id" ∈ df.cols
  case neg => simp [hid] at h
  by_cases hreq : (requiredColumns.all fun c => df.cols.contains c) = true
  case neg => rw [if_pos hid, if_neg hreq] at h; simp at h
  rw [if_pos hid, if_pos hreq] at h
  cases h2 : filterNumericRows ⟨df.cols, dropDuplicatesById [] df.rows⟩
      "vote_average" (fun q => decide (0 < q)) with
  | error e => rw [h2, except_error_bind] at h; simp at h
  | ok df2 =>
    rw [h2, except_ok_bind] at h
    cases h3 : filterNumericRows df2 "vote_count" (fun q => decide (10 ≤ q)) with
    | error e => rw [h3, except_error_bind] at h; simp at h
    | ok df3 =>
      rw [h3, except_ok_bind] at h
      cases h4 : filterNumericRows df3 "vote_average" (fun q => decide (q ≤ 10)) with
      | error e => rw [h4, except_error_bind] at h; simp at h
      | ok df4 =>
        rw [h4, except_ok_bind] at h
        simp only [Except.ok.injEq, Option.some.injEq] at h
        obtain ⟨-, hrows4⟩ := filterNumericRows_ok h4
        obtain ⟨-, hrows3⟩ := filterNumericRows_ok h3
        obtain ⟨-, hrows2⟩ := filterNumericRows_ok h2
        rw [← h] at hr
        simp only [List.mem_filter, List.mem_map] at hr
        obtain ⟨⟨r4, hr4, rfl⟩, -⟩ := hr
        rw [hrows4] at hr4
        rw [List.mem_filter] at hr4
        obtain ⟨hr3, hle10⟩ := hr4
        rw [hrows3, List.mem_filter] at hr3
        obtain ⟨hr2, hvc⟩ := hr3
        rw [hrows2, List.mem_filter] at hr2
        obtain ⟨-, hgt0⟩ := hr2
        obtain ⟨q, hq, hq0⟩ : ∃ q,
            rowGet r4 "vote_average" = Val.num q ∧ 0 < q := by
          revert hgt0
          cases rowGet r4 "vote_average" <;> simp
        obtain ⟨k, hk, hk10⟩ : ∃ k,
            rowGet r4 "vote_count" = Val.num k ∧ 10 ≤ k := by
          revert hvc
          cases rowGet r4 "vote_count" <;> simp
        have hq10 : q ≤ 10 := by
          rw [hq] at hle10
          simpa using hle10
        constructor
        · refine ⟨q, ?_, hq0, hq10⟩
          rw [rowGet_setColumn_other _ _ _ _ (by decide),
            rowGet_setColumn_other _ _ _ _ (by decide),
            rowGet_setColumn_same _ _ _ rfl, hq]
          rfl
        · refine ⟨k, ?_, hk10⟩
          rw [rowGet_setColumn_other _ _ _ _ (by decide),
            rowGet_setColumn_same _ _ _ rfl,
            rowGet_setColumn_other _ _ _ _ (by decide), hk]
          rfl

/-- C2 witness: the cleaning invariant evaluated on a concrete one-row
dataframe that survives cleaning. -/
theorem step2_cleaning_invariant_witness :
    (∃ q, rowGet [("id", Val.num 1), ("vote_average", Val.num 7),
        ("vote_count", Val.num 20), ("popularity", Val.num 5)]
        "vote_average" = Val.num q ∧ 0 < q ∧ q ≤ 10) ∧
    (∃ k, rowGet [("id", Val.num 1), ("vote_average", Val.num 7),
        ("vote_count", Val.num 20), ("popularity", Val.num 5)]
        "vote_count" = Val.num k ∧ 10 ≤ k) :=
  step2_cleaning_invariant
    ⟨["id", "vote_average", "vote_count", "popularity"],
      [[("id", Val.num 1), ("vote_average", Val.num 7),
        ("vote_count", Val.num 20), ("popularity", Val.num 5)]]⟩
    ⟨["id", "vote_average", "vote_count", "popularity"],
      [[("id", Val.num 1), ("vote_average", Val.num 7),
        ("vote_count", Val.num 20), ("popularity", Val.num 5)]]⟩
    rfl
    [("id", Val.num 1), ("vote_average", Val.num 7),
      ("vote_count", Val.num 20), ("popularity", Val.num 5)]
    (by decide)

/-- C4 counterexample: on a dataframe that lacks the `id` column (but has the
other three required columns) the Clean step does not return the `None`
sentinel — `df.drop_duplicates(subset=['id'])` runs before the
required-column check and raises `KeyError`. -/
theorem step2_missing_id_raises_cx :
    step2_data_cleaning ⟨["vote_average", "vote_count", "popularity"],
      [[("vote_average", Val.num 7), ("vote_count", Val.num 20),
        ("popularity", Val.num 5)]]⟩ = .error (.keyError "id") ∧
    ¬ step2_data_cleaning ⟨["vote_average", "vote_count", "popularity"],
      [[("vote_average", Val.num 7), ("vote_count", Val.num 20),
        ("popularity", Val.num 5)]]⟩ = .ok none := by
  constructor
  · rfl
  · intro hcon
    have h1 : step2_data_cleaning ⟨["vote_average", "vote_count", "popularity"],
        [[("vote_average", Val.num 7), ("vote_count", Val.num 20),
          ("popularity", Val.num 5)]]⟩ = .error (.keyError "id") := rfl
    rw [h1] at hcon
    simp at hcon

/-- C4 (amended): when the `id` column is absent the Clean step raises
`KeyError` (from the dedupe that precedes the column check); when `id` is
present but another required column is missing it returns the `None`
sentinel without raising; when all four required columns are present (and
the compared columns are numeric, so that the pandas comparisons do not
raise) it returns a dataframe. -/
theorem step2_missing_columns_amended (df : DataFrame) :
    ("id" ∉ df.cols → step2_data_cleaning df = .error (.keyError "id")) ∧
    ("id" ∈ df.cols → (∃ c ∈ requiredColumns, c ∉ df.cols) →
      step2_data_cleaning df = .ok none) ∧
    ((∀ c ∈ requiredColumns, c ∈ df.cols) →
      (∀ r ∈ df.rows, (rowGet r "vote_average").isNumOrNull = true ∧
        (rowGet r "vote_count").isNumOrNull = true) →
      ∃ out, step2_data_cleaning df = .ok (some out)) := by
  refine ⟨fun hid => ?_, fun hid ⟨c, hc, hcn⟩ => ?_, fun hall hnum => ?_⟩
  · unfold step2_data_cleaning
    rw [if_neg hid]
  · have hne : ¬ (requiredColumns.all fun c => df.cols.contains c) = true :=
      fun hcontains =>
        hcn (List.elem_iff.mp (List.all_eq_true.mp hcontains c hc))
    simp only [step2_data_cleaning]
    rw [if_pos hid, if_neg hne]
  · have hid : "id" ∈ df.cols := hall "id" (by decide)
    have hreq : (requiredColumns.all fun c => df.cols.contains c) = true :=
      List.all_eq_true.mpr (fun c hc => List.elem_iff.mpr (hall c hc))
    have m1 : ∀ r ∈ dropDuplicatesById [] df.rows,
        (rowGet r "vote_average").isNumOrNull = true ∧
        (rowGet r "vote_count").isNumOrNull = true :=
      fun r hr => hnum r (mem_dropDuplicatesById hr)
    simp only [step2_data_cleaning]
    rw [if_pos hid, if_pos hreq]
    rw [filterNumericRows_all_ok ⟨df.cols, dropDuplicatesById [] df.rows⟩
      "vote_average" _ (fun r hr => (m1 r hr).1), except_ok_bind]
    rw [filterNumericRows_all_ok _ "vote_count" _
      (fun r hr => (m1 r (List.mem_filter.mp hr).1).2), except_ok_bind]
    rw [filterNumericRows_all_ok _ "vote_average" _
      (fun r hr => (m1 r (List.mem_filter.mp (List.mem_filter.mp hr).1).1).1),
      except_ok_bind]
    exact ⟨_, rfl⟩

/-- C4 amended-claim witness: the three branches evaluated on concrete
dataframes — no `id` column, `id` only, and all four required columns. -/
theorem step2_missing_columns_amended_witness :
    step2_data_cleaning ⟨["vote_average"], []⟩ = .error (.keyError "id") ∧
    step2_data_cleaning ⟨["id"], []⟩ = .ok none ∧
    ∃ out, step2_data_cleaning
      ⟨["id", "vote_average", "vote_count", "popularity"], []⟩ =
        .ok (some out) :=
  ⟨(step2_missing_columns_amended ⟨["vote_average"], []⟩).1 (by decide),
   (step2_missing_columns_amended ⟨["id"], []⟩).2.1 (by decide)
     ⟨"vote_average", by decide, by decide⟩,
   (step2_missing_columns_amended
     ⟨["id", "vote_average", "vote_count", "popularity"], []⟩).2.2
     (by decide) (by decide)⟩

/-- C8 counterexample: the claim asserts that for some input row more than one
of the three seasonal flags is 1 simultaneously; this is false — the month
sets {6,7,8}, {11,12}, {3,4,5} are pairwise disjoint, so no cell value sets
two flags at once. -/
theorem seasonal_flags_no_overlap_cx :
    ¬ ∃ month : Val,
      (is_summer_release month = Val.num 1 ∧
        is_holiday_release month = Val.num 1) ∨
      (is_summer_release month = Val.num 1 ∧
        is_spring_release month = Val.num 1) ∨
      (is_holiday_release month = Val.num 1 ∧
        is_spring_release month = Val.num 1) := by
  rintro ⟨m, h⟩
  obtain ⟨p1, p2, p3⟩ := seasonFlags_pairwise m
  rcases h with h | h | h
  · exact p1 h
  · exact p2 h
  · exact p3 h

/-- C8 (amended): the three seasonal flags produced by feature engineering
(`is_summer_release` for months 6–8, `is_holiday_release` for months 11–12,
`is_spring_release` for months 3–5) are pairwise mutually exclusive — no cell
value sets more than one of them — and each flag is 1 on its own months. -/
theorem seasonal_flags_mutually_exclusive (month : Val) :
    (¬ (is_summer_release month = Val.num 1 ∧
        is_holiday_release month = Val.num 1)) ∧
    (¬ (is_summer_release month = Val.num 1 ∧
        is_spring_release month = Val.num 1)) ∧
    (¬ (is_holiday_release month = Val.num 1 ∧
        is_spring_release month = Val.num 1)) ∧
    is_summer_release (Val.num 7) = Val.num 1 ∧
    is_holiday_release (Val.num 12) = Val.num 1 ∧
    is_spring_release (Val.num 4) = Val.num 1 := by
  obtain ⟨p1, p2, p3⟩ := seasonFlags_pairwise month
  refine ⟨p1, p2, p3, ?_, ?_, ?_⟩ <;> decide

/-- C5: from every registry state — including states where several versions
hold the "Production" stage — a successful `register_and_promote_model`
leaves exactly one version in "Production": the version newly registered
from the given run. -/
theorem register_and_promote_single_production
    (reg : List ModelVersion) (runId : String) :
    ((register_and_promote_model reg runId "Production").1).filter
      (fun mv => mv.stage == "Production") =
    [⟨(register_and_promote_model reg runId "Production").2, runId,
      "Production"⟩] := by
  simp only [register_and_promote_model, registerModel, transitionStage]
  rw [List.map_append, List.map_append, List.filter_append]
  have hfresh : ∀ mv ∈ reg,
      mv.version ≠ (reg.map (fun mv => mv.version)).foldr max 0 + 1 := by
    intro mv hmv
    have := le_foldr_max (reg.map (fun mv => mv.version)) mv.version
      (List.mem_map_of_mem _ hmv)
    omega
  have hleft : (((reg.map (fun mv =>
      if mv.stage = "Production" then { mv with stage := "None" } else mv)).map
      (fun mv => if mv.version = (reg.map (fun mv => mv.version)).foldr max 0 + 1
        then { mv with stage := "Production" } else mv)).filter
      (fun mv => mv.stage == "Production")) = [] := by
    rw [List.filter_eq_nil_iff]
    intro a ha
    rw [List.mem_map] at ha
    obtain ⟨b, hb, rfl⟩ := ha
    rw [List.mem_map] at hb
    obtain ⟨mv, hmv, rfl⟩ := hb
    by_cases hp : mv.stage = "Production" <;>
      simp [hp, hfresh mv hmv]
  rw [hleft]
  simp

/-- C10: for every cached prediction set, the five rating buckets reported by
`/stats` (≥ 8, [7,8), [6,7), [5,6), < 5) have counts summing to the reported
`total_movies`, and every rating value falls in exactly one bucket. -/
theorem stats_rating_buckets_partition (c : PredCache) :
    ∃ total b1 b2 b3 b4 b5,
      get_prediction_statistics (some c) = some (total, b1, b2, b3, b4, b5) ∧
      b1 + b2 + b3 + b4 + b5 = total ∧
      ∀ r : ℚ, ((if 8 ≤ r then 1 else 0) + (if 7 ≤ r ∧ r < 8 then 1 else 0) +
        (if 6 ≤ r ∧ r < 7 then 1 else 0) + (if 5 ≤ r ∧ r < 6 then 1 else 0) +
        (if r < 5 then 1 else 0) : ℕ) = 1 :=
  ⟨_, _, _, _, _, _, rfl, ratingBins_sum _, fun r => bucket_indicator r⟩

/-- C6: for every cached prediction set, `get_top_movies(N)` returns the `N`
highest-rated entries in descending predicted-rating order with ranks
numbered consecutively from 1; on the cache `{1: 8.1, 2: 6.4, 3: 9.0}` with
limit 2 it returns movie 3 (9.0) at rank 1 and movie 1 (8.1) at rank 2; and
the `/top-movies` endpoint accepts exactly limits in `[1, 50]`, default 10. -/
theorem get_top_movies_spec :
    (∀ (c : PredCache) (topn : ℕ) (res : List TopMovie) (total : ℕ),
      get_top_movies (some c) topn = some (res, total) →
      total = c.predictions.length ∧
      res.map TopMovie.rank = List.range' 1 res.length ∧
      List.Chain' (fun a b => b.predictedRating ≤ a.predictedRating) res ∧
      res.length = min topn (c.movieIds.zip c.predictions).length ∧
      ∃ taken dropped,
        (taken ++ dropped).Perm (c.movieIds.zip c.predictions) ∧
        res = rankFormat 1 taken ∧
        ∀ a ∈ taken, ∀ b ∈ dropped, ratingDesc a b) ∧
    get_top_movies (some ⟨[1, 2, 3], [81/10, 32/5, 9]⟩) 2 =
      some ([⟨1, 3, 9⟩, ⟨2, 1, 81/10⟩], 3) ∧
    topMoviesLimitDefault = 10 ∧
    (∀ n : ℤ, topMoviesLimitAccepted n = true ↔ 1 ≤ n ∧ n ≤ 50) := by
  refine ⟨?_, ?_, rfl, ?_⟩
  · intro c topn res total h
    simp only [get_top_movies, Option.some.injEq, Prod.mk.injEq] at h
    obtain ⟨hres, htotal⟩ := h
    have hsorted : List.Pairwise ratingDesc
        (List.insertionSort ratingDesc (c.movieIds.zip c.predictions)) :=
      List.sorted_insertionSort ratingDesc (c.movieIds.zip c.predictions)
    have hperm : (List.insertionSort ratingDesc
        (c.movieIds.zip c.predictions)).Perm (c.movieIds.zip c.predictions) :=
      List.perm_insertionSort ratingDesc (c.movieIds.zip c.predictions)
    have htake : List.Pairwise ratingDesc
        ((List.insertionSort ratingDesc (c.movieIds.zip c.predictions)).take topn) :=
      List.Pairwise.sublist (List.take_sublist _ _) hsorted
    refine ⟨htotal.symm, ?_, ?_, ?_, ?_⟩
    · rw [← hres, rankFormat_ranks, rankFormat_length]
    · rw [← hres]
      exact (rankFormat_pairwise htake 1).chain'
    · rw [← hres, rankFormat_length, List.length_take, hperm.length_eq]
    · refine ⟨(List.insertionSort ratingDesc (c.movieIds.zip c.predictions)).take topn,
        (List.insertionSort ratingDesc (c.movieIds.zip c.predictions)).drop topn,
        ?_, hres.symm, ?_⟩
      · rw [List.take_append_drop]
        exact hperm
      · have hps : List.Pairwise ratingDesc
            ((List.insertionSort ratingDesc (c.movieIds.zip c.predictions)).take topn ++
             (List.insertionSort ratingDesc (c.movieIds.zip c.predictions)).drop topn) := by
          rw [List.take_append_drop]
          exact hsorted
        exact (List.pairwise_append.mp hps).2.2
  · norm_num [get_top_movies, List.insertionSort, List.orderedInsert,
      ratingDesc, rankFormat, roundTo2, round_eq]
  · intro n
    simp [topMoviesLimitAccepted]

/-- C6 witness: the general part of the claim evaluated on the concrete cache
`{1: 8.1, 2: 6.4, 3: 9.0}` with limit 2. -/
theorem get_top_movies_spec_witness :
    3 = ((⟨[1, 2, 3], [81/10, 32/5, 9]⟩ : PredCache)).predictions.length ∧
    ([⟨1, 3, 9⟩, ⟨2, 1, 81/10⟩] : List TopMovie).map TopMovie.rank =
      List.range' 1 ([⟨1, 3, 9⟩, ⟨2, 1, 81/10⟩] : List TopMovie).length ∧
    List.Chain' (fun a b => b.predictedRating ≤ a.predictedRating)
      ([⟨1, 3, 9⟩, ⟨2, 1, 81/10⟩] : List TopMovie) ∧
    ([⟨1, 3, 9⟩, ⟨2, 1, 81/10⟩] : List TopMovie).length =
      min 2 (((⟨[1, 2, 3], [81/10, 32/5, 9]⟩ : PredCache)).movieIds.zip
        ((⟨[1, 2, 3], [81/10, 32/5, 9]⟩ : PredCache)).predictions).length ∧
    ∃ taken dropped,
      (taken ++ dropped).Perm (((⟨[1, 2, 3], [81/10, 32/5, 9]⟩ : PredCache)).movieIds.zip
        ((⟨[1, 2, 3], [81/10, 32/5, 9]⟩ : PredCache)).predictions) ∧
      ([⟨1, 3, 9⟩, ⟨2, 1, 81/10⟩] : List TopMovie) = rankFormat 1 taken ∧
      ∀ a ∈ taken, ∀ b ∈ dropped, ratingDesc a b :=
  get_top_movies_spec.1 ⟨[1, 2, 3], [81/10, 32/5, 9]⟩ 2
    [⟨1, 3, 9⟩, ⟨2, 1, 81/10⟩] 3 get_top_movies_spec.2.1

/-- C9: when the requested count exceeds the cache size `K`,
`get_top_movies` still succeeds and returns all `K` predictions, sorted in
descending predicted-rating order with ranks 1..K. -/
theorem get_top_movies_overflow_spec (c : PredCache) (topn : ℕ)
    (res : List TopMovie) (total : ℕ)
    (h : get_top_movies (some c) topn = some (res, total))
    (hK : (c.movieIds.zip c.predictions).length ≤ topn) :
    res.length = (c.movieIds.zip c.predictions).length ∧
    res.map TopMovie.rank =
      List.range' 1 (c.movieIds.zip c.predictions).length ∧
    List.Chain' (fun a b => b.predictedRating ≤ a.predictedRating) res ∧
    (res.map (fun t => (t.movieId, t.predictedRating))).Perm
      ((c.movieIds.zip c.predictions).map (fun p => (p.1, roundTo2 p.2))) := by
  simp only [get_top_movies, Option.some.injEq, Prod.mk.injEq] at h
  obtain ⟨hres, -⟩ := h
  have hsorted : List.Pairwise ratingDesc
      (List.insertionSort ratingDesc (c.movieIds.zip c.predictions)) :=
    List.sorted_insertionSort ratingDesc (c.movieIds.zip c.predictions)
  have hperm : (List.insertionSort ratingDesc
      (c.movieIds.zip c.predictions)).Perm (c.movieIds.zip c.predictions) :=
    List.perm_insertionSort ratingDesc (c.movieIds.zip c.predictions)
  have hall : (List.insertionSort ratingDesc
      (c.movieIds.zip c.predictions)).take topn =
      List.insertionSort ratingDesc (c.movieIds.zip c.predictions) :=
    List.take_of_length_le (by rw [hperm.length_eq]; exact hK)
  rw [← hres, hall]
  refine ⟨?_, ?_, ?_, ?_⟩
  · rw [rankFormat_length, hperm.length_eq]
  · rw [rankFormat_ranks, hperm.length_eq]
  · exact (rankFormat_pairwise hsorted 1).chain'
  · rw [rankFormat_map_proj]
    exact hperm.map _

/-- C9 witness: the overflow behaviour evaluated on the concrete cache
`{1: 8.1, 2: 6.4, 3: 9.0}` with requested count 5 > 3. -/
theorem get_top_movies_overflow_spec_witness :
    ([⟨1, 3, 9⟩, ⟨2, 1, 81/10⟩, ⟨3, 2, 32/5⟩] : List TopMovie).length =
      (((⟨[1, 2, 3], [81/10, 32/5, 9]⟩ : PredCache)).movieIds.zip
        ((⟨[1, 2, 3], [81/10, 32/5, 9]⟩ : PredCache)).predictions).length ∧
    ([⟨1, 3, 9⟩, ⟨2, 1, 81/10⟩, ⟨3, 2, 32/5⟩] : List TopMovie).map
        TopMovie.rank =
      List.range' 1 (((⟨[1, 2, 3], [81/10, 32/5, 9]⟩ : PredCache)).movieIds.zip
        ((⟨[1, 2, 3], [81/10, 32/5, 9]⟩ : PredCache)).predictions).length ∧
    List.Chain' (fun a b => b.predictedRating ≤ a.predictedRating)
      ([⟨1, 3, 9⟩, ⟨2, 1, 81/10⟩, ⟨3, 2, 32/5⟩] : List TopMovie) ∧
    (([⟨1, 3, 9⟩, ⟨2, 1, 81/10⟩, ⟨3, 2, 32/5⟩] : List TopMovie).map
        (fun t => (t.movieId, t.predictedRating))).Perm
      ((((⟨[1, 2, 3], [81/10, 32/5, 9]⟩ : PredCache)).movieIds.zip
        ((⟨[1, 2, 3], [81/10, 32/5, 9]⟩ : PredCache)).predictions).map
        (fun p => (p.1, roundTo2 p.2))) :=
  get_top_movies_overflow_spec ⟨[1, 2, 3], [81/10, 32/5, 9]⟩ 5
    [⟨1, 3, 9⟩, ⟨2, 1, 81/10⟩, ⟨3, 2, 32/5⟩] 3
    (by norm_num [get_top_movies, List.insertionSort, List.orderedInsert,
      ratingDesc, rankFormat, roundTo2, round_eq])
    (by norm_num)

/-- C7: the Scale step is deterministic given its input, also across repeated
invocations on the same preprocessor object: its output never depends on the
cached label-encoder state (every encoder is refit by `fit_transform`), so
any two encoder-cache states — in particular the fresh state and the state
left behind by a first invocation — yield identical scaled and encoded
values. -/
theorem step5_scaling_deterministic (df : DataFrame) (target : String)
    (encs1 encs2 : EncoderCache) :
    (step5_feature_scaling encs1 df target).2 =
      (step5_feature_scaling encs2 df target).2 ∧
    (step5_feature_scaling
        (step5_feature_scaling encs1 df target).1 df target).2 =
      (step5_feature_scaling encs1 df target).2 :=
  ⟨step5_output_state_independent df target encs1 encs2,
   step5_output_state_independent df target _ encs1⟩

/-- C1: when the dataframe reaching the split step has a `release_year`
column (with release years present), `step6_train_test_split` splits
time-based: the threshold is the 0.8 linear-interpolation quantile of the
release years of the full dataset, the train part is exactly the rows with
year ≤ threshold and the test part exactly the rows with year > threshold,
both in input order (no shuffling) and together exhausting the dataset; when
no `release_year` column exists the step falls back to
`train_test_split(..., test_size=0.2, random_state=42)`. -/
theorem step6_time_based_split_spec (df : DataFrame) (target : String) :
    (target ∈ df.cols → "release_year" ∈ df.cols → df.rows ≠ [] →
      (∀ r ∈ df.rows, (rowGet r "release_year").isNum = true) →
      ∃ t, quantileLinear (numericColumnValues df "release_year") (4/5) = some t ∧
        step6_train_test_split df target (1/5) =
          .ok (.timeBased (some t)
            ((df.rows.filter (fun r => releaseYearLE r t)).map
              (fun r => dropColumn r target))
            ((df.rows.filter (fun r => releaseYearGT r t)).map
              (fun r => dropColumn r target))
            ((df.rows.filter (fun r => releaseYearLE r t)).map
              (fun r => rowGet r target))
            ((df.rows.filter (fun r => releaseYearGT r t)).map
              (fun r => rowGet r target))) ∧
        (df.rows.filter (fun r => releaseYearLE r t)).length +
          (df.rows.filter (fun r => releaseYearGT r t)).length =
            df.rows.length ∧
        (df.rows.filter (fun r => releaseYearLE r t)).Sublist df.rows ∧
        (df.rows.filter (fun r => releaseYearGT r t)).Sublist df.rows ∧
        (∀ r ∈ df.rows,
          (releaseYearLE r t = true ↔ ¬ releaseYearGT r t = true))) ∧
    (target ∈ df.cols → "release_year" ∉ df.cols →
      step6_train_test_split df target (1/5) =
        .ok (.randomSplit (df.rows.map (fun r => dropColumn r target))
          (df.rows.map (fun r => rowGet r target)) (1/5) 42)) := by
  constructor
  · intro hT hry hne hnum
    have hxs : numericColumnValues df "release_year" ≠ [] := by
      cases hrows : df.rows with
      | nil => exact absurd hrows hne
      | cons r rest =>
        have hr : (rowGet r "release_year").isNum = true := by
          apply hnum
          rw [hrows]
          exact List.mem_cons_self r rest
        obtain ⟨q, hq⟩ : ∃ q, rowGet r "release_year" = Val.num q := by
          cases hv : rowGet r "release_year" <;> rw [hv] at hr <;>
            simp [Val.isNum] at hr ⊢
        simp [numericColumnValues, hrows, List.filterMap_cons, hq]
    obtain ⟨t, ht⟩ := quantileLinear_some hxs (4/5)
    have hcompl : ∀ r ∈ df.rows, releaseYearLE r t = !releaseYearGT r t :=
      fun r hr => releaseYear_mask_compl (hnum r hr)
    refine ⟨t, ht, ?_, length_filter_partition hcompl,
      List.filter_sublist _, List.filter_sublist _, ?_⟩
    · unfold step6_train_test_split
      rw [if_pos hT, if_pos hry, ht]
    · intro r hr
      rw [hcompl r hr]
      cases releaseYearGT r t <;> simp
  · intro hT hry
    unfold step6_train_test_split
    rw [if_pos hT, if_neg hry]

/-- C1 witness: the two branches of the split evaluated on concrete
dataframes — a two-row frame with release years 1 and 6 (threshold 5, one
train row, one test row) and a frame without a `release_year` column. -/
theorem step6_time_based_split_spec_witness :
    (let dfA : DataFrame := ⟨["release_year", "vote_average"],
        [[("release_year", Val.num 1), ("vote_average", Val.num 7)],
         [("release_year", Val.num 6), ("vote_average", Val.num 8)]]⟩
     ∃ t, quantileLinear (numericColumnValues dfA "release_year") (4/5) =
        some t ∧
      step6_train_test_split dfA "vote_average" (1/5) =
        .ok (.timeBased (some t)
          ((dfA.rows.filter (fun r => releaseYearLE r t)).map
            (fun r => dropColumn r "vote_average"))
          ((dfA.rows.filter (fun r => releaseYearGT r t)).map
            (fun r => dropColumn r "vote_average"))
          ((dfA.rows.filter (fun r => releaseYearLE r t)).map
            (fun r => rowGet r "vote_average"))
          ((dfA.rows.filter (fun r => releaseYearGT r t)).map
            (fun r => rowGet r "vote_average"))) ∧
      (dfA.rows.filter (fun r => releaseYearLE r t)).length +
        (dfA.rows.filter (fun r => releaseYearGT r t)).length =
          dfA.rows.length ∧
      (dfA.rows.filter (fun r => releaseYearLE r t)).Sublist dfA.rows ∧
      (dfA.rows.filter (fun r => releaseYearGT r t)).Sublist dfA.rows ∧
      (∀ r ∈ dfA.rows,
        (releaseYearLE r t = true ↔ ¬ releaseYearGT r t = true))) ∧
    step6_train_test_split ⟨["vote_average"], [[("vote_average", Val.num 7)]]⟩
        "vote_average" (1/5) =
      .ok (.randomSplit
        ([[("vote_average", Val.num 7)]].map
          (fun r => dropColumn r "vote_average"))
        ([[("vote_average", Val.num 7)]].map
          (fun r => rowGet r "vote_average")) (1/5) 42) :=
  ⟨(step6_time_based_split_spec ⟨["release_year", "vote_average"],
      [[("release_year", Val.num 1), ("vote_average", Val.num 7)],
       [("release_year", Val.num 6), ("vote_average", Val.num 8)]]⟩
      "vote_average").1 (by decide) (by decide) (by decide) (by decide),
   (step6_time_based_split_spec
      ⟨["vote_average"], [[("vote_average", Val.num 7)]]⟩
      "vote_average").2 (by decide) (by decide)⟩

end MovieMLOps
